import Mathlib

/-!
# Verification of the Hacktoberfest contribution tracker

A shallow embedding of `src/Python/src/Contribute_Checker/project_tracker.py`
(class `ProjectTracker`), together with the parts of the `Contributor` data
model and of the Metrics Engine that the tracker delegates to.  The
`contributor.py` and `performance_metrics.py` modules are not part of the
sources; where the tracker calls into them, the definitions below are
modelled from the specification and marked as such in their doc comments.

Conventions of the embedding:
* A Python `dict` (which iterates in insertion order) is an association
  list `List (String × β)`; assignment `d[k] = v` replaces the value in
  place when the key is present and appends otherwise (`dictInsert`).
* Methods that mutate the tracker return a pair `result × ProjectTracker`;
  methods whose bodies contain no write to `self` or to a contributor
  object return the input tracker unchanged in the second component.
* `datetime.now()` is an explicit `now : String` argument; dates are the
  ISO strings the code itself compares (Python compares them as strings).
* Python's stable `sorted(..., reverse=True)` with a key is modelled by a
  stable insertion sort on the same key; a stable sort's output is
  uniquely determined by the key order and the input order, so the two
  agree extensionally.
* File I/O is externalised: `save_data` returns the JSON document it would
  write, and `load_data` consumes `Option (Except String SavedData)` —
  `none` for a missing file, `Except.error` for a file whose contents do
  not parse as JSON, `Except.ok` for a parsed document.
-/

/-- Python string comparison on code points: `a < b` lexicographically.
`Char.toNat` is the code point, matching CPython's `str` ordering. -/
def strLtAux : List Char → List Char → Bool
  | [], [] => false
  | [], _ :: _ => true
  | _ :: _, [] => false
  | a :: as, b :: bs =>
    if a.toNat < b.toNat then true
    else if b.toNat < a.toNat then false
    else strLtAux as bs

/-- Python `a < b` on strings. -/
def pyLt (a b : String) : Bool := strLtAux a.data b.data

/-- Python `a <= b` on strings (total order, so `¬ b < a`). -/
def pyLe (a b : String) : Bool := !(pyLt b a)

/-- Python dict assignment `d[k] = v` on an association list: replace the
value at the first occurrence of `k`, or append `(k, v)` when absent. -/
def dictInsert {β : Type} : List (String × β) → String → β → List (String × β)
  | [], u, v => [(u, v)]
  | (k, w) :: rest, u, v =>
    if k = u then (k, v) :: rest else (k, w) :: dictInsert rest u v

/-- One step of the stable descending insertion sort on a `Nat` key: the
element being inserted comes from earlier in the original list than every
element already in the sorted suffix, so on an equal key it is placed first. -/
def insertByCount {α : Type} (key : α → Nat) (x : α) : List α → List α
  | [] => [x]
  | y :: ys =>
    if key x < key y then y :: insertByCount key x ys else x :: y :: ys

/-- Stable sort, descending in a `Nat` key: the model of Python's
`sorted(xs, key=..., reverse=True)`. -/
def sortByCountDesc {α : Type} (key : α → Nat) : List α → List α
  | [] => []
  | x :: xs => insertByCount key x (sortByCountDesc key xs)

/-- Stable descending insertion on a `String` key under `pyLt`. -/
def insertByDate {α : Type} (key : α → String) (x : α) : List α → List α
  | [] => [x]
  | y :: ys =>
    if pyLt (key x) (key y) then y :: insertByDate key x ys else x :: y :: ys

/-- Stable sort, descending in a `String` key: the model of Python's
`sorted(xs, key=lambda x: x.get('date',''), reverse=True)`. -/
def sortByDateDesc {α : Type} (key : α → String) : List α → List α
  | [] => []
  | x :: xs => insertByDate key x (sortByDateDesc key xs)

/-- One contribution record, the dict created by
`Contributor.add_contribution` and persisted under the `contributions` key
(spec §3: `{repo_name, type, description, pr_number, date}`). -/
structure Contribution where
  repo_name : String
  type : String
  description : String
  pr_number : Option Int
  date : String
deriving DecidableEq, Repr

/-- Modelled from the spec: `contributor.py` is not under `src/`.  Spec §3:
a Contributor is `{name, github_username (unique key), email (optional),
joined_date, contributions: ordered sequence of Contribution}`. -/
structure Contributor where
  name : String
  github_username : String
  email : String
  joined_date : String
  contributions : List Contribution
deriving DecidableEq, Repr

/-- The per-contributor object of the persisted JSON document (spec §6).
Fields read with `dict.get(…, default)` in `load_data` are `Option`s. -/
structure ContribDict where
  name : String
  github_username : String
  email : Option String
  joined_date : Option String
  contributions : List Contribution
deriving DecidableEq, Repr

/-- The persisted JSON document (spec §6):
`{project_name, created_date, contributors: {username: {...}}}`.
`load_data` reads the top-level keys with defaults, hence the `Option`s. -/
structure SavedData where
  project_name : Option String
  created_date : Option String
  contributors : List (String × ContribDict)
deriving DecidableEq, Repr

namespace Contributor

/-- Modelled from the spec: the `Contributor(name, github_username, email)`
constructor; `joined_date` is set to the current time (spec §3: Contributor
created on first `add_contributor`), passed here as `now`. -/
def create (name github_username email now : String) : Contributor :=
  { name := name, github_username := github_username, email := email,
    joined_date := now, contributions := [] }

/-- Modelled from the spec: number of recorded contributions. -/
def get_contribution_count (c : Contributor) : Nat := c.contributions.length

/-- Modelled from the spec: "Hacktoberfest complete" invariant, true iff
contribution count ≥ 4 (spec §3). -/
def is_hacktoberfest_complete (c : Contributor) : Bool :=
  decide (4 ≤ c.contributions.length)

/-- Modelled from the spec: `Contribution` appended via `add_contribution`,
never removed (spec §3, Lifecycle); the timestamp is `now`. -/
def add_contribution (c : Contributor) (repo_name type description : String)
    (pr_number : Option Int) (now : String) : Contributor :=
  { c with contributions := c.contributions ++
      [{ repo_name := repo_name, type := type, description := description,
         pr_number := pr_number, date := now }] }

/-- Modelled from the spec: serialisation of one contributor for the
persisted JSON document (spec §6:
`{name, github_username, email, joined_date, contributions: [...]}`). -/
def to_dict (c : Contributor) : ContribDict :=
  { name := c.name, github_username := c.github_username,
    email := some c.email, joined_date := some c.joined_date,
    contributions := c.contributions }

end Contributor

/-- Rebuilding one contributor from a persisted entry, as the loop body of
`ProjectTracker.load_data` does: the constructor is called with
`contrib_data["name"]`, `contrib_data["github_username"]` and
`contrib_data.get("email", "")`; `joined_date` is overwritten when the key
is present (otherwise it keeps the constructor's `now`), and `contributions`
is assigned `contrib_data.get("contributions", [])`. -/
def contributorFromDict (now : String) (cd : ContribDict) : Contributor :=
  { name := cd.name, github_username := cd.github_username,
    email := cd.email.getD "", joined_date := cd.joined_date.getD now,
    contributions := cd.contributions }

/-- The tracker state: `project_name`, `data_file`, the insertion-ordered
`contributors` mapping and `created_date`
(`ProjectTracker.__init__`; the notifier and the stateless engine
collaborators carry no data relevant to the claims and are omitted). -/
structure ProjectTracker where
  project_name : String
  data_file : String
  contributors : List (String × Contributor)
  created_date : String
deriving DecidableEq, Repr

/-- One row of the list built by `ProjectTracker.get_leaderboard`. -/
structure LeaderboardEntry where
  name : String
  github_username : String
  email : String
  contribution_count : Nat
  unique_repositories : Nat
  latest_contribution : Option String
  joined_date : Option String
deriving DecidableEq, Repr

/-- One row of the list built by `ProjectTracker.get_recent_contributions`:
a copy of the contribution dict with the extra `contributor` key. -/
structure RecentEntry where
  repo_name : String
  type : String
  description : String
  pr_number : Option Int
  date : String
  contributor : Contributor
deriving DecidableEq, Repr

namespace ProjectTracker

/-- `ProjectTracker.add_contributor`: when the username is already a key the
existing contributor is returned and the state is untouched; otherwise a new
`Contributor` is created and stored under its username.  (The welcome email
and the `save_data()` call touch no tracker state.) -/
def add_contributor (now : String) (t : ProjectTracker)
    (name github_username email : String) : Contributor × ProjectTracker :=
  match t.contributors.lookup github_username with
  | some c => (c, t)
  | none =>
    let c := Contributor.create name github_username email now
    (c, { t with contributors := t.contributors ++ [(github_username, c)] })

/-- `ProjectTracker.get_contributor`: `self.contributors.get(github_username)`. -/
def get_contributor (t : ProjectTracker) (github_username : String) :
    Option Contributor :=
  t.contributors.lookup github_username

/-- `ProjectTracker.add_contribution`: returns `False` and leaves the state
alone when the username is unknown; otherwise appends the contribution to
that contributor and returns `True`.  (The milestone notification and the
`save_data()` call touch no tracker state.) -/
def add_contribution (now : String) (t : ProjectTracker)
    (github_username repo_name type description : String)
    (pr_number : Option Int) : Bool × ProjectTracker :=
  match t.contributors.lookup github_username with
  | none => (false, t)
  | some c =>
    let c2 := c.add_contribution repo_name type description pr_number now
    (true, { t with contributors := dictInsert t.contributors github_username c2 })

/-- `ProjectTracker.get_all_contributors`: `list(self.contributors.values())`. -/
def get_all_contributors (t : ProjectTracker) : List Contributor :=
  t.contributors.map Prod.snd

/-- `ProjectTracker.get_completed_contributors`: the contributors for whom
`is_hacktoberfest_complete()` holds, in mapping order. -/
def get_completed_contributors (t : ProjectTracker) : List Contributor :=
  (t.contributors.map Prod.snd).filter (fun c => c.is_hacktoberfest_complete)

/-- The inner loop of `get_leaderboard` over one contributor's
contributions: `unique_repos` is a set of `repo_name`s, and
`latest_contribution` is replaced by a date when the current value is falsy
(`None` or the empty string) or compares smaller as a Python string. -/
def leaderboardEntryOf (c : Contributor) : LeaderboardEntry :=
  { name := c.name, github_username := c.github_username, email := c.email,
    contribution_count := c.get_contribution_count,
    unique_repositories := ((c.contributions.map (fun k => k.repo_name)).dedup).length,
    latest_contribution :=
      c.contributions.foldl
        (fun acc k =>
          match acc with
          | none => some k.date
          | some l => if l = "" || pyLt l k.date then some k.date else some l)
        none,
    -- `contributor.joined_date` is a `datetime`, and every `datetime` is
    -- truthy in Python, so the `if contributor.joined_date` guard always
    -- takes the `isoformat()` branch.
    joined_date := some c.joined_date }

/-- The unsorted rows of `get_leaderboard`, in mapping order. -/
def leaderboardRows (t : ProjectTracker) : List LeaderboardEntry :=
  t.contributors.map (fun p => leaderboardEntryOf p.2)

/-- `ProjectTracker.get_leaderboard`: per-contributor stats rows sorted by
`contribution_count` descending with Python's stable `sorted`. -/
def get_leaderboard (t : ProjectTracker) : List LeaderboardEntry × ProjectTracker :=
  (sortByCountDesc (fun e => e.contribution_count) (leaderboardRows t), t)

end ProjectTracker

/-- The dict returned by `ProjectTracker.get_project_stats`.  The code
formats `completion_rate` as a percentage string (`"0%"` for the empty
collection) and computes `avg_contributions_per_contributor` with float
division; both are modelled as exact rationals, with the empty-collection
branches returning `0` as the code does. -/
structure ProjectStats where
  project_name : String
  total_contributors : Nat
  total_contributions : Nat
  completed_hacktoberfest : Nat
  completion_rate : Rat
  avg_contributions_per_contributor : Rat
  unique_repositories : Nat
  contributions_by_type : List (String × Nat)
  created_date : String
deriving DecidableEq

namespace ProjectTracker

/-- `ProjectTracker.get_project_stats`: totals, completion aggregates, the
per-type contribution counts (a dict built with `d[t] = d.get(t, 0) + 1`)
and the number of distinct repository names. -/
def get_project_stats (t : ProjectTracker) : ProjectStats × ProjectTracker :=
  let contributors := t.get_all_contributors
  let total_contributions :=
    contributors.foldl (fun acc c => acc + c.get_contribution_count) 0
  let completed_count := t.get_completed_contributors.length
  let contributions_by_type :=
    contributors.foldl
      (fun m c =>
        c.contributions.foldl
          (fun m k => dictInsert m k.type ((m.lookup k.type).getD 0 + 1)) m)
      []
  let repo_names :=
    contributors.foldl
      (fun acc c => acc ++ c.contributions.map (fun k => k.repo_name)) []
  ({ project_name := t.project_name,
     total_contributors := contributors.length,
     total_contributions := total_contributions,
     completed_hacktoberfest := completed_count,
     completion_rate :=
       if contributors.length = 0 then 0
       else ((completed_count : Rat) / (contributors.length : Rat)) * 100,
     avg_contributions_per_contributor :=
       if contributors.length = 0 then 0
       else (total_contributions : Rat) / (contributors.length : Rat),
     unique_repositories := repo_names.dedup.length,
     contributions_by_type := contributions_by_type,
     created_date := t.created_date }, t)

/-- The flat list built by `get_recent_contributions` before sorting: for
each contributor in mapping order, a copy of each contribution dict with
the `contributor` key added (the copy means the stored dicts are not
touched). -/
def recentRows (t : ProjectTracker) : List RecentEntry :=
  t.contributors.foldl
    (fun acc p =>
      acc ++ p.2.contributions.map
        (fun k =>
          { repo_name := k.repo_name, type := k.type,
            description := k.description, pr_number := k.pr_number,
            date := k.date, contributor := p.2 }))
    []

/-- `ProjectTracker.get_recent_contributions`: all contributions with their
contributor, sorted by date (most recent first, Python's stable sort on the
`date` string), truncated to `limit`. -/
def get_recent_contributions (t : ProjectTracker) (limit : Nat) :
    List RecentEntry × ProjectTracker :=
  ((sortByDateDesc (fun e => e.date) (recentRows t)).take limit, t)

/-- `ProjectTracker.save_data`: the JSON document written to `data_file` —
the project name, the creation date and every contributor serialised with
`to_dict`, keyed by username. -/
def save_data (t : ProjectTracker) : SavedData :=
  { project_name := some t.project_name,
    created_date := some t.created_date,
    contributors := t.contributors.map (fun p => (p.1, p.2.to_dict)) }

/-- `ProjectTracker.load_data`: a missing file (`none`) returns immediately;
a file that fails to parse (`Except.error`) is caught by the
`except` clause, which prints the error and changes nothing; a parsed
document updates `project_name` and `created_date` when those keys are
present and stores a rebuilt contributor under each username in the file. -/
def load_data (now : String) (t : ProjectTracker)
    (file : Option (Except String SavedData)) : ProjectTracker :=
  match file with
  | none => t
  | some (Except.error _) => t
  | some (Except.ok d) =>
    { t with
      project_name := d.project_name.getD t.project_name,
      created_date := d.created_date.getD t.created_date,
      contributors :=
        d.contributors.foldl
          (fun m p => dictInsert m p.1 (contributorFromDict now p.2))
          t.contributors }

end ProjectTracker

/-- Digits of a decimal number, folded to a `Nat` (code point 48 is `0`). -/
def digitsToNat (cs : List Char) : Nat :=
  cs.foldl (fun a c => a * 10 + (c.toNat - 48)) 0

/-- Modelled from the spec: the Metrics Engine works with calendar days;
an ISO date string `YYYY-MM-DD` is abstracted to a day index in which
consecutive days within a month differ by one. -/
def date_to_day (s : String) : Nat :=
  let ds := s.data
  digitsToNat (ds.take 4) * 372 + digitsToNat ((ds.drop 5).take 2) * 31 +
    digitsToNat ((ds.drop 8).take 2)

/-- Ascending insertion sort on `Nat`, used to order a contributor's
distinct active days. -/
def insertAscNat (x : Nat) : List Nat → List Nat
  | [] => [x]
  | y :: ys => if y < x then y :: insertAscNat x ys else x :: y :: ys

/-- Ascending sort on `Nat`. -/
def sortAscNat (l : List Nat) : List Nat :=
  l.foldr insertAscNat []

/-- Longest run of consecutive day indices in an ascending list, given the
previous day, the current run length and the best run so far. -/
def streakRun (prev cur best : Nat) : List Nat → Nat
  | [] => max cur best
  | d :: rest =>
    if d = prev + 1 then streakRun d (cur + 1) (max (cur + 1) best) rest
    else streakRun d 1 best rest

/-- Modelled from the spec: "Streak: count of consecutive calendar days
with at least one contribution" (spec Glossary) — the longest run of
consecutive active days among the distinct days with a contribution. -/
def longest_streak (c : Contributor) : Nat :=
  match sortAscNat ((c.contributions.map (fun k => date_to_day k.date)).dedup) with
  | [] => 0
  | d :: rest => streakRun d 1 1 rest

/-- Modelled from the spec: recency measured as the number of contributions
dated on or after a cutoff date (dates compare as ISO strings). -/
def recent_count (cutoff : String) (c : Contributor) : Nat :=
  (c.contributions.filter (fun k => pyLe cutoff k.date)).length

/-- Modelled from the spec: `performance_metrics.py` (the Metrics Engine)
is not under `src/`.  Spec §4.1: the engagement score is "a weighted
combination of contribution count, streak length, and recency", the exact
weights being "a policy choice ... documented and stable for a given input
set".  The policy weights fixed here are 2 per contribution, 1 per streak
day and 5 per recent contribution, each strictly positive so that every one
of the three named signals contributes. -/
def engagement_score (cutoff : String) (c : Contributor) : Nat :=
  2 * c.get_contribution_count + longest_streak c + 5 * recent_count cutoff c

/-! ## Concrete data used by the counterexample and the witnesses -/

/-- A contribution recorded early in the event. -/
def cxContribOld : Contribution :=
  { repo_name := "repo-a", type := "code", description := "fix",
    pr_number := none, date := "2025-09-01" }

/-- A contribution recorded late in the event. -/
def cxContribNew : Contribution :=
  { repo_name := "repo-b", type := "code", description := "fix",
    pr_number := some 7, date := "2025-10-10" }

/-- A contributor with five early contributions. -/
def cxAlice : Contributor :=
  { name := "Alice", github_username := "alice", email := "",
    joined_date := "2025-09-01T00:00:00",
    contributions := List.replicate 5 cxContribOld }

/-- A contributor with four late contributions. -/
def cxBob : Contributor :=
  { name := "Bob", github_username := "bob", email := "b@x.io",
    joined_date := "2025-09-02T00:00:00",
    contributions := List.replicate 4 cxContribNew }

/-- A contributor with three contributions (below the completion boundary). -/
def cxCharlie : Contributor :=
  { name := "Charlie", github_username := "charlie", email := "",
    joined_date := "2025-09-03T00:00:00",
    contributions := List.replicate 3 cxContribOld }

/-- A two-contributor tracker state. -/
def cxTracker : ProjectTracker :=
  { project_name := "Hacktoberfest 2025", data_file := "contributors.json",
    contributors := [(cxAlice.github_username, cxAlice),
                     (cxBob.github_username, cxBob)],
    created_date := "2025-09-01T00:00:00" }

/-- The recency cutoff used with the modelled engagement score. -/
def cxCutoff : String := "2025-10-05"

/-- A timestamp for operations that take the current time. -/
def wNow : String := "2025-10-12T00:00:00"

/-- A freshly initialised tracker (empty contributor collection). -/
def freshTracker : ProjectTracker :=
  { project_name := "Hacktoberfest 2025", data_file := "contributors.json",
    contributors := [], created_date := wNow }

/-- A JSON parse error message, as raised for malformed contents. -/
def wErrMsg : String := "Expecting value: line 1 column 1 (char 0)"

/-- A username registered in no tracker used by the witnesses. -/
def wUnknown : String := "mallory"

/-- A persisted entry for the username `bob`, differing from `cxBob`. -/
def wFileBob : ContribDict :=
  { name := "Bobby", github_username := "bob", email := none,
    joined_date := some "2025-08-30T12:00:00",
    contributions := [cxContribNew] }

/-- A persisted document mentioning only `bob`. -/
def wFile : SavedData :=
  { project_name := none, created_date := none,
    contributors := [(wFileBob.github_username, wFileBob)] }

/-! ## Helper lemmas -/

theorem mem_insertByCount {α : Type} (key : α → Nat) (x a : α) (l : List α) :
    a ∈ insertByCount key x l ↔ a = x ∨ a ∈ l := by
  induction l with
  | nil => simp [insertByCount]
  | cons y ys ih =>
    simp only [insertByCount]
    by_cases h : key x < key y
    · simp [h, ih]
      tauto
    · simp [h]

theorem insertByCount_pairwise {α : Type} (key : α → Nat) (x : α) (l : List α)
    (h : l.Pairwise (fun a b => key b ≤ key a)) :
    (insertByCount key x l).Pairwise (fun a b => key b ≤ key a) := by
  induction l with
  | nil => simp [insertByCount]
  | cons y ys ih =>
    rw [List.pairwise_cons] at h
    simp only [insertByCount]
    by_cases hxy : key x < key y
    · simp only [if_pos hxy]
      rw [List.pairwise_cons]
      refine ⟨?_, ih h.2⟩
      intro a ha
      rcases (mem_insertByCount key x a ys).mp ha with rfl | ha
      · omega
      · exact h.1 a ha
    · simp only [if_neg hxy]
      rw [List.pairwise_cons]
      refine ⟨?_, by rw [List.pairwise_cons]; exact h⟩
      intro a ha
      rcases List.mem_cons.mp ha with rfl | ha
      · omega
      · have := h.1 a ha
        omega

theorem sortByCountDesc_pairwise {α : Type} (key : α → Nat) (l : List α) :
    (sortByCountDesc key l).Pairwise (fun a b => key b ≤ key a) := by
  induction l with
  | nil => simp [sortByCountDesc]
  | cons x xs ih => exact insertByCount_pairwise key x _ ih

theorem insertByCount_filter {α : Type} (key : α → Nat) (x : α) (l : List α)
    (k : Nat) :
    (insertByCount key x l).filter (fun e => decide (key e = k)) =
      if key x = k then x :: l.filter (fun e => decide (key e = k))
      else l.filter (fun e => decide (key e = k)) := by
  induction l with
  | nil =>
    by_cases hx : key x = k <;> simp [insertByCount, List.filter, hx]
  | cons y ys ih =>
    simp only [insertByCount]
    by_cases hxy : key x < key y
    · simp only [if_pos hxy]
      by_cases hx : key x = k
      · have hy : ¬ (key y = k) := by omega
        simp [List.filter_cons, hx, hy, ih]
      · by_cases hy : key y = k <;> simp [List.filter_cons, hx, hy, ih]
    · simp only [if_neg hxy]
      by_cases hx : key x = k <;> simp [List.filter_cons, hx]

theorem sortByCountDesc_filter {α : Type} (key : α → Nat) (l : List α)
    (k : Nat) :
    (sortByCountDesc key l).filter (fun e => decide (key e = k)) =
      l.filter (fun e => decide (key e = k)) := by
  induction l with
  | nil => simp [sortByCountDesc]
  | cons x xs ih =>
    simp only [sortByCountDesc]
    rw [insertByCount_filter]
    by_cases hx : key x = k <;> simp [List.filter_cons, hx, ih]

theorem lookup_eq_none_of_not_mem {β : Type} {l : List (String × β)}
    {u : String} (h : u ∉ l.map Prod.fst) : l.lookup u = none := by
  induction l with
  | nil => rfl
  | cons p rest ih =>
    have h1 : ¬ u = p.1 := fun he => h (by
      rw [List.map_cons, he]
      exact List.mem_cons_self _ _)
    have h2 : u ∉ rest.map Prod.fst := fun hm => h (by
      rw [List.map_cons]
      exact List.mem_cons_of_mem _ hm)
    rw [List.lookup_cons, beq_false_of_ne h1]
    exact ih h2

theorem mem_of_lookup_eq_some {β : Type} {l : List (String × β)}
    {u : String} {v : β} (h : l.lookup u = some v) : u ∈ l.map Prod.fst := by
  induction l with
  | nil => simp [List.lookup] at h
  | cons p rest ih =>
    rw [List.lookup_cons] at h
    by_cases he : u = p.1
    · rw [List.map_cons, he]
      exact List.mem_cons_self _ _
    · rw [beq_false_of_ne he] at h
      rw [List.map_cons]
      exact List.mem_cons_of_mem _ (ih h)

theorem dictInsert_of_not_mem {β : Type} {l : List (String × β)}
    {u : String} (v : β) (h : u ∉ l.map Prod.fst) :
    dictInsert l u v = l ++ [(u, v)] := by
  induction l with
  | nil => rfl
  | cons p rest ih =>
    have h1 : ¬ p.1 = u := fun he => h (by
      rw [List.map_cons, ← he]
      exact List.mem_cons_self _ _)
    have h2 : u ∉ rest.map Prod.fst := fun hm => h (by
      rw [List.map_cons]
      exact List.mem_cons_of_mem _ hm)
    show (if p.1 = u then _ else (p.1, p.2) :: dictInsert rest u v) = _
    rw [if_neg h1, ih h2]
    rfl

theorem dictInsert_keys_of_not_mem {β : Type} {l : List (String × β)}
    {u : String} (v : β) (h : u ∉ l.map Prod.fst) :
    (dictInsert l u v).map Prod.fst = l.map Prod.fst ++ [u] := by
  rw [dictInsert_of_not_mem v h, List.map_append]
  rfl

theorem lookup_dictInsert_self {β : Type} (l : List (String × β))
    (u : String) (v : β) : (dictInsert l u v).lookup u = some v := by
  induction l with
  | nil =>
    show List.lookup u [(u, v)] = some v
    rw [List.lookup_cons, beq_self_eq_true]
  | cons p rest ih =>
    by_cases he : p.1 = u
    · show List.lookup u (if p.1 = u then (p.1, v) :: rest else _) = some v
      rw [if_pos he, List.lookup_cons, he, beq_self_eq_true]
    · show List.lookup u (if p.1 = u then _ else (p.1, p.2) :: dictInsert rest u v) = some v
      rw [if_neg he, List.lookup_cons, beq_false_of_ne (fun hh => he hh.symm)]
      exact ih

theorem lookup_dictInsert_ne {β : Type} (l : List (String × β))
    (u w : String) (v : β) (h : w ≠ u) :
    (dictInsert l u v).lookup w = l.lookup w := by
  induction l with
  | nil =>
    show List.lookup w [(u, v)] = none
    rw [List.lookup_cons, beq_false_of_ne h]
    rfl
  | cons p rest ih =>
    by_cases he : p.1 = u
    · show List.lookup w (if p.1 = u then (p.1, v) :: rest else _) = _
      rw [if_pos he, List.lookup_cons, List.lookup_cons, he,
        beq_false_of_ne h]
    · show List.lookup w (if p.1 = u then _ else (p.1, p.2) :: dictInsert rest u v) = _
      rw [if_neg he, List.lookup_cons, List.lookup_cons]
      by_cases hw : w = p.1
      · rw [beq_iff_eq.mpr hw]
      · rw [beq_false_of_ne hw]
        exact ih

theorem lookup_foldl_dictInsert_of_not_mem {β γ : Type} (g : γ → β)
    (entries : List (String × γ)) (m : List (String × β)) (u : String)
    (h : u ∉ entries.map Prod.fst) :
    (entries.foldl (fun acc p => dictInsert acc p.1 (g p.2)) m).lookup u =
      m.lookup u := by
  induction entries generalizing m with
  | nil => rfl
  | cons p rest ih =>
    have h1 : u ≠ p.1 := fun he => h (by
      rw [List.map_cons, he]
      exact List.mem_cons_self _ _)
    have h2 : u ∉ rest.map Prod.fst := fun hm => h (by
      rw [List.map_cons]
      exact List.mem_cons_of_mem _ hm)
    rw [List.foldl_cons, ih _ h2, lookup_dictInsert_ne _ _ _ _ h1]

theorem lookup_foldl_dictInsert_of_mem {β γ : Type} (g : γ → β)
    (entries : List (String × γ)) (m : List (String × β)) (u : String)
    (cd : γ) (hnd : (entries.map Prod.fst).Nodup) (hmem : (u, cd) ∈ entries) :
    (entries.foldl (fun acc p => dictInsert acc p.1 (g p.2)) m).lookup u =
      some (g cd) := by
  induction entries generalizing m with
  | nil => exact absurd hmem (List.not_mem_nil _)
  | cons p rest ih =>
    rw [List.map_cons, List.nodup_cons] at hnd
    rcases List.mem_cons.mp hmem with he | hm
    · have hnotin : u ∉ rest.map Prod.fst := by
        rw [← he] at hnd
        exact hnd.1
      rw [List.foldl_cons,
        lookup_foldl_dictInsert_of_not_mem g rest _ u hnotin, ← he,
        lookup_dictInsert_self]
    · rw [List.foldl_cons]
      exact ih _ hnd.2 hm

theorem foldl_dictInsert_of_fresh {β γ : Type} (g : γ → β)
    (entries : List (String × γ)) (m : List (String × β))
    (hnd : (entries.map Prod.fst).Nodup)
    (hdisj : ∀ k ∈ entries.map Prod.fst, k ∉ m.map Prod.fst) :
    entries.foldl (fun acc p => dictInsert acc p.1 (g p.2)) m =
      m ++ entries.map (fun p => (p.1, g p.2)) := by
  induction entries generalizing m with
  | nil => simp
  | cons p rest ih =>
    rw [List.map_cons, List.nodup_cons] at hnd
    have hp : p.1 ∉ m.map Prod.fst := by
      refine hdisj p.1 ?_
      rw [List.map_cons]
      exact List.mem_cons_self _ _
    rw [List.foldl_cons, dictInsert_of_not_mem _ hp,
      ih (m ++ [(p.1, g p.2)]) hnd.2]
    · simp
    · intro k hk
      have hkm : k ∉ m.map Prod.fst := by
        refine hdisj k ?_
        rw [List.map_cons]
        exact List.mem_cons_of_mem _ hk
      have hkp : k ≠ p.1 := fun he => hnd.1 (he ▸ hk)
      rw [List.map_append]
      intro hcontra
      rcases List.mem_append.mp hcontra with hc | hc
      · exact hkm hc
      · simp at hc
        exact hkp hc

theorem foldl_add_count (l : List Contributor) (n : Nat) :
    l.foldl (fun acc c => acc + c.get_contribution_count) n =
      n + (l.map (fun c => c.contributions.length)).sum := by
  induction l generalizing n with
  | nil => simp
  | cons c rest ih =>
    rw [List.foldl_cons, ih, List.map_cons, List.sum_cons,
      Contributor.get_contribution_count]
    omega

theorem exists_lookup_of_mem {β : Type} {l : List (String × β)}
    {u : String} (h : u ∈ l.map Prod.fst) : ∃ v, l.lookup u = some v := by
  induction l with
  | nil => simp at h
  | cons p rest ih =>
    by_cases he : u = p.1
    · refine ⟨p.2, ?_⟩
      rw [List.lookup_cons, beq_iff_eq.mpr he]
    · rw [List.map_cons, List.mem_cons] at h
      rcases h with hc | hm
      · exact absurd hc he
      · obtain ⟨v, hv⟩ := ih hm
        refine ⟨v, ?_⟩
        rw [List.lookup_cons, beq_false_of_ne he]
        exact hv

/-! ## Claims -/

/-- Claim C1, counterexample: `get_leaderboard` sorts by contribution count,
not by engagement score.  In `cxTracker` the leaderboard lists `alice`
(5 contributions, all early) before `bob` (4 contributions, all recent),
yet `alice`'s engagement score is strictly below `bob`'s, so engagement
scores are not non-increasing from first to last entry. -/
theorem leaderboard_not_ordered_by_engagement :
    ((cxTracker.get_leaderboard).1.map (fun e => e.github_username)) =
      [cxAlice.github_username, cxBob.github_username]
  ∧ engagement_score cxCutoff cxAlice < engagement_score cxCutoff cxBob := by
  constructor
  · decide
  · decide

/-- Claim C1 (amended): for every contributor collection, the list returned
by `get_leaderboard` is ordered so that contribution counts are
non-increasing from first to last entry, and the ordering is stable —
entries with equal contribution count keep the relative order they have in
the contributor mapping. -/
theorem get_leaderboard_sorted_stable (t : ProjectTracker) :
    ((t.get_leaderboard).1.Pairwise
        (fun a b => b.contribution_count ≤ a.contribution_count))
  ∧ ∀ k, (t.get_leaderboard).1.filter
        (fun e => decide (e.contribution_count = k)) =
      (ProjectTracker.leaderboardRows t).filter
        (fun e => decide (e.contribution_count = k)) := by
  constructor
  · exact sortByCountDesc_pairwise _ _
  · intro k
    exact sortByCountDesc_filter _ _ _

/-- Claim C2: saving a contributor collection and loading the saved
document into a fresh tracker yields an equal contributor collection
(provided the original mapping has no duplicate usernames, which is forced
by the Python dict it models). -/
theorem save_load_roundtrip (now : String) (t fresh : ProjectTracker)
    (hfresh : fresh.contributors = [])
    (hnd : (t.contributors.map Prod.fst).Nodup) :
    (ProjectTracker.load_data now fresh
        (some (Except.ok t.save_data))).contributors = t.contributors := by
  show (t.save_data.contributors.foldl
      (fun m p => dictInsert m p.1 (contributorFromDict now p.2))
      fresh.contributors) = t.contributors
  rw [hfresh]
  rw [foldl_dictInsert_of_fresh (contributorFromDict now) _ _ ?_ ?_]
  · show (t.contributors.map (fun p => (p.1, p.2.to_dict))).map
        (fun p => (p.1, contributorFromDict now p.2)) = t.contributors
    rw [List.map_map]
    have : ((fun p => (p.1, contributorFromDict now p.2)) ∘
        (fun p : String × Contributor => (p.1, p.2.to_dict))) =
        fun p : String × Contributor => (p.1, p.2) := by
      funext p
      rfl
    rw [this]
    simp
  · show ((t.contributors.map (fun p => (p.1, p.2.to_dict))).map
        Prod.fst).Nodup
    rw [List.map_map]
    exact hnd
  · intro k _
    simp

/-- Claim C2, witness at a concrete two-contributor collection. -/
theorem save_load_roundtrip_witness :
    (ProjectTracker.load_data wNow freshTracker
        (some (Except.ok cxTracker.save_data))).contributors =
      cxTracker.contributors :=
  save_load_roundtrip wNow cxTracker freshTracker rfl (by decide)

/-- Claim C3: a contributor appears in `get_completed_contributors` exactly
when it is in the collection with at least 4 contributions, the completion
flag holds of every contributor with exactly 4 contributions, and fails of
every contributor with exactly 3. -/
theorem completed_iff_four_or_more (t : ProjectTracker) (c : Contributor) :
    (c ∈ t.get_completed_contributors ↔
      c ∈ t.get_all_contributors ∧ 4 ≤ c.contributions.length)
  ∧ (c.contributions.length = 4 → c.is_hacktoberfest_complete = true)
  ∧ (c.contributions.length = 3 → c.is_hacktoberfest_complete = false) := by
  refine ⟨?_, ?_, ?_⟩
  · rw [ProjectTracker.get_completed_contributors,
      ProjectTracker.get_all_contributors, List.mem_filter,
      Contributor.is_hacktoberfest_complete]
    simp
  · intro h
    rw [Contributor.is_hacktoberfest_complete, h]
    rfl
  · intro h
    rw [Contributor.is_hacktoberfest_complete, h]
    rfl

/-- Claim C3, witness: `cxBob` has exactly 4 contributions and is complete;
`cxCharlie` has exactly 3 and is not. -/
theorem completed_iff_four_or_more_witness :
    cxBob.is_hacktoberfest_complete = true
  ∧ cxCharlie.is_hacktoberfest_complete = false :=
  ⟨(completed_iff_four_or_more cxTracker cxBob).2.1 (by decide),
   (completed_iff_four_or_more cxTracker cxCharlie).2.2 (by decide)⟩

/-- Claim C4: the `total_contributions` reported by `get_project_stats`
equals the sum over the collection of each contributor's contribution
count. -/
theorem stats_total_is_sum (t : ProjectTracker) :
    (t.get_project_stats).1.total_contributions =
      ((t.get_all_contributors).map (fun c => c.contributions.length)).sum := by
  show (t.get_all_contributors).foldl
      (fun acc c => acc + c.get_contribution_count) 0 = _
  rw [foldl_add_count]
  omega

/-- Claim C5: `add_contributor` is idempotent — called with a username that
is already a key it returns the existing contributor and changes nothing —
and it preserves uniqueness of the usernames in the mapping. -/
theorem add_contributor_idempotent_unique (now : String) (t : ProjectTracker)
    (nm u em : String) :
    (∀ c, t.contributors.lookup u = some c →
        ProjectTracker.add_contributor now t nm u em = (c, t))
  ∧ ((t.contributors.map Prod.fst).Nodup →
      (((ProjectTracker.add_contributor now t nm u em).2).contributors.map
          Prod.fst).Nodup) := by
  constructor
  · intro c hc
    rw [ProjectTracker.add_contributor, hc]
  · intro hnd
    rw [ProjectTracker.add_contributor]
    cases hl : t.contributors.lookup u with
    | some c => exact hnd
    | none =>
      have hu : u ∉ t.contributors.map Prod.fst := by
        intro hm
        obtain ⟨v, hv⟩ := exists_lookup_of_mem hm
        rw [hl] at hv
        exact Option.noConfusion hv
      show ((t.contributors ++ [(u, Contributor.create nm u em now)]).map
          Prod.fst).Nodup
      rw [List.map_append]
      rw [List.nodup_append]
      refine ⟨hnd, List.nodup_singleton _, ?_⟩
      intro a ha hb
      simp at hb
      exact hu (hb ▸ ha)

/-- Claim C5, witness: adding `alice` again returns the stored contributor
and leaves the tracker unchanged, and the usernames stay unique. -/
theorem add_contributor_idempotent_unique_witness :
    ProjectTracker.add_contributor wNow cxTracker cxAlice.name
        cxAlice.github_username cxAlice.email = (cxAlice, cxTracker)
  ∧ (((ProjectTracker.add_contributor wNow cxTracker cxAlice.name
        cxAlice.github_username cxAlice.email).2).contributors.map
          Prod.fst).Nodup :=
  ⟨(add_contributor_idempotent_unique wNow cxTracker cxAlice.name
      cxAlice.github_username cxAlice.email).1 cxAlice (by decide),
   (add_contributor_idempotent_unique wNow cxTracker cxAlice.name
      cxAlice.github_username cxAlice.email).2 (by decide)⟩

/-- Claim C6: `load_data` on a missing data file leaves the tracker
unchanged, and on malformed JSON the raised exception is caught, so the
tracker is again unchanged — in particular an empty contributor collection
stays empty. -/
theorem load_data_missing_or_malformed (now msg : String) (t : ProjectTracker) :
    ProjectTracker.load_data now t none = t
  ∧ ProjectTracker.load_data now t (some (Except.error msg)) = t
  ∧ (t.contributors = [] →
      (ProjectTracker.load_data now t (some (Except.error msg))).contributors
        = []) := by
  exact ⟨rfl, rfl, fun h => h⟩

/-- Claim C6, witness: loading malformed JSON into a fresh tracker leaves
the contributor collection empty. -/
theorem load_data_missing_or_malformed_witness :
    (ProjectTracker.load_data wNow freshTracker
        (some (Except.error wErrMsg))).contributors = [] :=
  (load_data_missing_or_malformed wNow wErrMsg freshTracker).2.2 rfl

/-- Claim C7: an unknown username is surfaced as an optional or boolean
result — `get_contributor` returns `None` and `add_contribution` returns
`False` (leaving the tracker unchanged) instead of raising. -/
theorem unknown_username_surfaced (now : String) (t : ProjectTracker)
    (u repo ty desc : String) (pr : Option Int)
    (h : t.contributors.lookup u = none) :
    t.get_contributor u = none
  ∧ ProjectTracker.add_contribution now t u repo ty desc pr = (false, t) := by
  refine ⟨h, ?_⟩
  rw [ProjectTracker.add_contribution, h]

/-- Claim C7, witness at the unregistered username `mallory`. -/
theorem unknown_username_surfaced_witness :
    cxTracker.get_contributor wUnknown = none
  ∧ ProjectTracker.add_contribution wNow cxTracker wUnknown
      cxContribNew.repo_name cxContribNew.type cxContribNew.description
      cxContribNew.pr_number = (false, cxTracker) :=
  unknown_username_surfaced wNow cxTracker wUnknown cxContribNew.repo_name
    cxContribNew.type cxContribNew.description cxContribNew.pr_number
    (by decide)

/-- Claim C8: on an empty contributor collection `get_project_stats`
returns zero-valued aggregates (and, being total, raises nothing): zero
contributors, zero contributions, zero completed, zero completion rate,
zero average, zero distinct repositories and no per-type counts. -/
theorem stats_empty_zeroed (t : ProjectTracker) (h : t.contributors = []) :
    (t.get_project_stats).1.total_contributors = 0
  ∧ (t.get_project_stats).1.total_contributions = 0
  ∧ (t.get_project_stats).1.completed_hacktoberfest = 0
  ∧ (t.get_project_stats).1.completion_rate = 0
  ∧ (t.get_project_stats).1.avg_contributions_per_contributor = 0
  ∧ (t.get_project_stats).1.unique_repositories = 0
  ∧ (t.get_project_stats).1.contributions_by_type = [] := by
  obtain ⟨pn, df, cs, cd⟩ := t
  have hcs : cs = [] := h
  subst hcs
  exact ⟨rfl, rfl, rfl, rfl, rfl, rfl, rfl⟩

/-- Claim C8, witness at a concrete freshly initialised tracker. -/
theorem stats_empty_zeroed_witness :
    (freshTracker.get_project_stats).1.total_contributions = 0
  ∧ (freshTracker.get_project_stats).1.completion_rate = 0
  ∧ (freshTracker.get_project_stats).1.avg_contributions_per_contributor = 0 :=
  ⟨(stats_empty_zeroed freshTracker rfl).2.1,
   (stats_empty_zeroed freshTracker rfl).2.2.2.1,
   (stats_empty_zeroed freshTracker rfl).2.2.2.2.1⟩

/-- Claim C9: the read-only analytics operations — `get_leaderboard`,
`get_project_stats` and `get_recent_contributions` — leave the tracker
state (the contributor mapping and every stored contribution record)
unchanged: their bodies write only to locals and to copies, so their
state-threaded embeddings return the input tracker. -/
theorem readonly_ops_leave_state (t : ProjectTracker) (limit : Nat) :
    (t.get_leaderboard).2 = t
  ∧ (t.get_project_stats).2 = t
  ∧ (t.get_recent_contributions limit).2 = t :=
  ⟨rfl, rfl, rfl⟩

/-- Claim C10: `load_data` merges into the existing collection — a username
absent from the loaded file keeps its previous binding (in particular every
contributor not mentioned in the file is still present and unchanged),
while a username present in the file ends up bound to the contributor
rebuilt from the file entry. -/
theorem load_data_merges (now : String) (t : ProjectTracker) (d : SavedData)
    (u : String) :
    (u ∉ d.contributors.map Prod.fst →
      ((ProjectTracker.load_data now t (some (Except.ok d))).contributors).lookup
          u = t.contributors.lookup u)
  ∧ ((d.contributors.map Prod.fst).Nodup → ∀ cd, (u, cd) ∈ d.contributors →
      ((ProjectTracker.load_data now t (some (Except.ok d))).contributors).lookup
          u = some (contributorFromDict now cd)) := by
  constructor
  · intro h
    exact lookup_foldl_dictInsert_of_not_mem _ _ _ _ h
  · intro hnd cd hmem
    exact lookup_foldl_dictInsert_of_mem _ _ _ _ _ hnd hmem

/-- Claim C10, witness: loading a document that mentions only `bob` keeps
`alice`'s binding and replaces `bob`'s with the entry from the file. -/
theorem load_data_merges_witness :
    ((ProjectTracker.load_data wNow cxTracker
        (some (Except.ok wFile))).contributors).lookup
        cxAlice.github_username =
      cxTracker.contributors.lookup cxAlice.github_username
  ∧ ((ProjectTracker.load_data wNow cxTracker
        (some (Except.ok wFile))).contributors).lookup
        cxBob.github_username = some (contributorFromDict wNow wFileBob) :=
  ⟨(load_data_merges wNow cxTracker wFile cxAlice.github_username).1
      (by decide),
   (load_data_merges wNow cxTracker wFile cxBob.github_username).2
      (by decide) wFileBob (by decide)⟩
